import Mathlib

/-!
Formal model of the video-URL resolution pipeline of the Meeting-Video-Scraper
repository.  The model covers `src/video_extractor/extract_video_urls.py`
(definitions with suffix `A`), `src/video_extractor/extract_embedded_videos.py`
(suffix `B`) and `src/video_extractor/test_yt_dlp_urls.py` (suffix `T`).

Strings are processed over `String.data` (lists of characters) with
self-contained helper functions, so that every definition evaluates by kernel
reduction on concrete inputs.
-/

namespace MVS

/-- Boolean test that the character list `l` begins with `pat` (compares the
first `pat.length` characters of `l` with `pat`). -/
def startsChars (l pat : List Char) : Bool := l.take pat.length == pat

/-- Boolean test that the character list `l` ends with `pat`. -/
def endsChars (l pat : List Char) : Bool := l.drop (l.length - pat.length) == pat

/-- Boolean substring test (Python's `in` operator on strings), over character
lists. -/
def substrChars (pat l : List Char) : Bool :=
  startsChars l pat ||
    match l with
    | [] => false
    | _ :: t => substrChars pat t

/-- Python's `pat in s` on strings. -/
def substrStr (pat s : String) : Bool := substrChars pat.data s.data

/-- Python's `s.startswith(pat)`. -/
def startsStr (s pat : String) : Bool := startsChars s.data pat.data

/-- ASCII lowering of a character list, modelling Python's `str.lower` on the
ASCII inputs this development uses. -/
def lowerChars (l : List Char) : List Char := l.map Char.toLower

/-- ASCII lowering of a string. -/
def lowerStr (s : String) : String := (lowerChars s.data).asString

/-- Characters allowed after the first character of a URI scheme (RFC 3986). -/
def schemeTailChar (c : Char) : Bool := c.isAlphanum || c == '+' || c == '-' || c == '.'

/-- Does the string carry a URI scheme, i.e. a `:` appearing before any `/`,
`?` or `#` and preceded by a valid scheme name?  This is the absolute-reference
test of `urllib.parse.urljoin`. -/
def hasScheme (s : String) : Bool :=
  match s.data.span (fun c => !(c == ':' || c == '/' || c == '?' || c == '#')) with
  | (c :: cs, ':' :: _) => c.isAlpha && cs.all schemeTailChar
  | _ => false

/-- Scheme name of an absolute URL: the characters before the first `:`. -/
def schemeOf (base : String) : List Char := base.data.takeWhile (fun c => c != ':')

/-- Splits an absolute `scheme://netloc/path` URL into its netloc and path
character lists. -/
def netlocPath (base : String) : List Char × List Char :=
  (base.data.drop ((schemeOf base).length + 3)).span (fun c => c != '/')

/-- Directory part of a path: everything up to and including the last `/`, or
`/` when the path contains no slash. -/
def dirOf (p : List Char) : List Char :=
  let r := p.reverse.dropWhile (fun c => c != '/')
  if r == [] then ['/'] else r.reverse

/-- Model of `urllib.parse.urljoin base ref` for the reference shapes occurring
in this development: a reference with its own scheme is returned unchanged, a
`//` reference adopts the base scheme, an empty reference yields the base, a
`#` or `?` reference is appended to the base, a root-relative reference
replaces the base path, and any other relative reference is resolved against
the directory of the base path.  Dot-segment removal and query/fragment
stripping of the full RFC 3986 algorithm are not modelled; no reference used in
this file contains dot segments, and all bases are plain absolute
`scheme://netloc/path` URLs. -/
def urljoin (base ref : String) : String :=
  if hasScheme ref then ref
  else if startsStr ref "//" then (schemeOf base).asString ++ ":" ++ ref
  else if ref = "" then base
  else if startsStr ref "#" || startsStr ref "?" then base ++ ref
  else
    let np := netlocPath base
    if startsStr ref "/" then
      (schemeOf base).asString ++ "://" ++ np.1.asString ++ ref
    else
      (schemeOf base).asString ++ "://" ++ np.1.asString ++ (dirOf np.2).asString ++ ref

/-- Fuel-driven scanning loop shared by the three regular-expression models.
At each position the matcher `f` either yields a match (the emitted string and
the total number of characters the match consumed, always at least one) and the
scan resumes after the match, or the scan advances one character.  This is the
left-to-right non-overlapping search of `re.finditer` / `re.findall`.  The fuel
is initialised with the length of the text, which bounds the number of steps,
so the fuel never runs out. -/
def scanFuel (f : List Char → Option (String × Nat)) : Nat → List Char → List String
  | 0, _ => []
  | _ + 1, [] => []
  | fuel + 1, c :: rest =>
    match f (c :: rest) with
    | some (u, n) => u :: scanFuel f fuel (rest.drop (n - 1))
    | none => scanFuel f fuel rest

/-- Scans a whole character list with the matcher `f`. -/
def scanWith (f : List Char → Option (String × Nat)) (cs : List Char) : List String :=
  scanFuel f cs.length cs

/-! ### Model of the raw-text video-URL pattern of `extract_video_urls.py`

Lines 127-132 scan `response.text` with the regular expression
`https?://[^\s"\']+\.(mp4|mov|avi|wmv|flv|webm|m3u8|mpd)[\s"\']` and append
`match.group(0).strip('\'"')` for every match. -/

/-- Extension alternation of the raw-text pattern in `extract_video_urls.py`
line 129, in source order. -/
def extsA : List String := ["mp4", "mov", "avi", "wmv", "flv", "webm", "m3u8", "mpd"]

/-- Characters matched by `[\s"\']` in the patterns: ASCII whitespace (Python's
`\s` on ASCII text) and the two quote characters. -/
def isDelimA (c : Char) : Bool :=
  c == ' ' || c == '\t' || c == '\n' || c == '\r' || c == '\x0b' || c == '\x0c' ||
    c == '"' || c == '\''

/-- Is the character a single or double quote? -/
def isQuote (c : Char) : Bool := c == '"' || c == '\''

/-- First extension of `exts` that `run` ends with, preceded by a literal dot
(case-sensitive). -/
def dotExtSuffix (exts : List String) (run : List Char) : Option String :=
  exts.find? (fun e => endsChars run ('.' :: e.data))

/-- First extension of `exts` that `run` ends with, preceded by a literal dot,
compared case-insensitively (`re.IGNORECASE`). -/
def dotExtSuffixCI (exts : List String) (run : List Char) : Option String :=
  exts.find? (fun e => endsChars (lowerChars run) ('.' :: e.data))

/-- Attempts to match the raw-text pattern of `extract_video_urls.py` line 129
at the head of `cs`.  The pattern matches a `http://` or `https://` scheme, a
non-empty run of characters outside `[\s"\']` ending in a dot and a recognised
extension, and one closing delimiter character; the code keeps
`group(0).strip('\'"')`, so a closing quote is stripped while a closing
whitespace character is kept.  Returns the emitted string and the length of the
whole match. -/
def tryMatchA (cs : List Char) : Option (String × Nat) :=
  let sch : Option (List Char) :=
    if startsChars cs "https://".data then some "https://".data
    else if startsChars cs "http://".data then some "http://".data
    else none
  match sch with
  | none => none
  | some s =>
    let rest := cs.drop s.length
    let run := rest.takeWhile (fun c => !(isDelimA c))
    match rest.drop run.length with
    | [] => none
    | d :: _ =>
      match dotExtSuffix extsA run with
      | none => none
      | some e =>
        if e.length + 2 ≤ run.length then
          some ((if isQuote d then s ++ run else s ++ run ++ [d]).asString,
                s.length + run.length + 1)
        else none

/-- Candidates found by the raw-text pattern pass of `extract_video_urls.py`
(strategy 4, lines 127-132). -/
def filePatternCandidatesA (text : String) : List String :=
  scanWith tryMatchA text.data

/-! ### Model of the inline-script pattern of `extract_embedded_videos.py`

Line 156 builds the pattern
`("|')(?:url|src|source|file|videoUrl|videoSrc)("|')\s*:\s*("|')([^"\']+\.(mp4|webm|m3u8|mpd))("|')`
which is applied with `re.IGNORECASE` to every script body; line 161 emits
`match[3] + match[4]`, the full quoted value (group 4, which already ends in
the extension) concatenated with the extension (group 5). -/

/-- Key alternation of the inline-script pattern, in source order. -/
def keysB : List String := ["url", "src", "source", "file", "videoUrl", "videoSrc"]

/-- Extension alternation of the inline-script pattern, in source order. -/
def extsB : List String := ["mp4", "webm", "m3u8", "mpd"]

/-- Characters matched by `\s` in Python regular expressions on ASCII text. -/
def isPySpace (c : Char) : Bool :=
  c == ' ' || c == '\t' || c == '\n' || c == '\r' || c == '\x0b' || c == '\x0c'

/-- Case-insensitive prefix test of a pattern string against a character
list. -/
def ciPrefixChars (pat : String) (cs : List Char) : Bool :=
  lowerChars (cs.take pat.length) == lowerChars pat.data

/-- Attempts to match the inline-script pattern at the head of `cs`, returning
the emitted string (`match[3] + match[4]`, where group 4 is the full quoted
value and group 5 repeats the extension characters) and the length of the whole
match.  The key alternatives are pairwise prefix-incompatible, so trying them
in source order is faithful to the regex alternation. -/
def tryMatchJsonB (cs : List Char) : Option (String × Nat) :=
  match cs with
  | [] => none
  | q1 :: rest1 =>
    if isQuote q1 then
      match keysB.find? (fun k => ciPrefixChars k rest1) with
      | none => none
      | some k =>
        let rest2 := rest1.drop k.length
        match rest2 with
        | [] => none
        | q2 :: rest3 =>
          if isQuote q2 then
            let sp1 := rest3.takeWhile isPySpace
            match rest3.drop sp1.length with
            | ':' :: rest5 =>
              let sp2 := rest5.takeWhile isPySpace
              match rest5.drop sp2.length with
              | [] => none
              | q3 :: rest7 =>
                if isQuote q3 then
                  let v := rest7.takeWhile (fun c => !(isQuote c))
                  match rest7.drop v.length with
                  | [] => none
                  | _ :: _ =>
                    match dotExtSuffixCI extsB v with
                    | none => none
                    | some e =>
                      if e.length + 2 ≤ v.length then
                        some ((v ++ v.drop (v.length - e.length)).asString,
                              k.length + sp1.length + sp2.length + v.length + 5)
                      else none
                else none
            | _ => none
          else none
    else none

/-- All emissions of the inline-script pattern over one script body
(`re.findall` on line 159 followed by the `match[3] + match[4]` emission on
line 161). -/
def scriptEmissionsB (script : String) : List String :=
  scanWith tryMatchJsonB script.data

/-! ### Model of the direct-link pattern of `extract_embedded_videos.py`

Lines 169-177 loop over the nine extensions of `VIDEO_EXTENSIONS` and, for each
`ext`, scan `response.text` with `["\']([^"\']*\.{ext}(\?[^"\']*)?)["\']` under
`re.IGNORECASE`, emitting group 1. -/

/-- `VIDEO_EXTENSIONS` of `extract_embedded_videos.py` line 42, in source
order. -/
def videoExtensionsB : List String :=
  ["mp4", "webm", "mov", "avi", "wmv", "flv", "m3u8", "mpd", "ts"]

/-- Does the quote-free character list `v` match
`[^"\']*\.{ext}(\?[^"\']*)?` in full?  Either `v` ends with a dot and the
extension, or some prefix of `v` ends with a dot and the extension and is
immediately followed by `?`. -/
def fileValOk (ext : String) (v : List Char) : Bool :=
  endsChars (lowerChars v) ('.' :: lowerChars ext.data) ||
    (List.range (v.length + 1)).any (fun i =>
      endsChars (lowerChars (v.take i)) ('.' :: lowerChars ext.data) &&
        (v.drop i).take 1 == ['?'])

/-- Attempts to match the direct-link pattern for one extension at the head of
`cs`: an opening quote, a quote-free value matching `fileValOk`, and a closing
quote.  Returns group 1 (the value) and the length of the whole match. -/
def tryMatchFileB (ext : String) (cs : List Char) : Option (String × Nat) :=
  match cs with
  | [] => none
  | q1 :: rest1 =>
    if isQuote q1 then
      let v := rest1.takeWhile (fun c => !(isQuote c))
      match rest1.drop v.length with
      | [] => none
      | _ :: _ =>
        if fileValOk ext v then some (v.asString, v.length + 2) else none
    else none

/-- Candidates found by the direct-link pattern pass for one extension. -/
def filePatternCandidatesB (ext : String) (text : String) : List String :=
  scanWith (tryMatchFileB ext) text.data

/-! ### Model of `extract_urls_from_json` of `extract_video_urls.py`

Lines 148-164 walk a parsed JSON value recursively: for every dictionary entry
whose key is in a fixed list and whose value is a string, the value is emitted
when it starts with `http`; every other entry's value, and every list element,
is walked recursively.  JSON arrays and objects are modelled as explicit cons
chains inside one inductive type so that the walk is plain structural
recursion. -/

/-- JSON values as consumed by `extract_urls_from_json`.  Arrays are
`arrNil`/`arrCons` chains and objects are `objNil`/`objCons` chains of
key-value pairs (dictionary insertion order). -/
inductive Json where
  | str (s : String)
  | intNum (n : Int)
  | boolVal (b : Bool)
  | null
  | arrNil
  | arrCons (hd tl : Json)
  | objNil
  | objCons (key : String) (val tl : Json)
deriving DecidableEq, Repr

/-- Key list of `extract_urls_from_json` line 155. -/
def jsonKeysA : List String :=
  ["url", "src", "source", "videoUrl", "video_url", "media", "mediaUrl"]

/-- Model of `extract_urls_from_json` (lines 148-164).  A dictionary entry with
a recognised key and a string value contributes the value exactly when it
starts with `http`; any other dictionary value and every list element is
walked recursively (recursing into a plain string, number, boolean or null
contributes nothing, as in the source where the `isinstance` checks fail). -/
def extract_urls_from_json : Json → List String
  | .str _ => []
  | .intNum _ => []
  | .boolVal _ => []
  | .null => []
  | .arrNil => []
  | .objNil => []
  | .arrCons x tl => extract_urls_from_json x ++ extract_urls_from_json tl
  | .objCons k v tl =>
    (match v with
     | .str s => if k ∈ jsonKeysA then (if startsStr s "http" then [s] else []) else []
     | v => extract_urls_from_json v) ++ extract_urls_from_json tl

/-- Specification-side emission relation for `extract_urls_from_json`: a string
is emitted somewhere inside a JSON value.  `objHit` is the emitting case; the
remaining constructors traverse list elements, non-string object values and
later object entries. -/
inductive JsonEmits : Json → String → Prop where
  | arrHead {x tl u} : JsonEmits x u → JsonEmits (.arrCons x tl) u
  | arrTail {x tl u} : JsonEmits tl u → JsonEmits (.arrCons x tl) u
  | objHit {k u tl} : k ∈ jsonKeysA → startsStr u "http" = true →
      JsonEmits (.objCons k (.str u) tl) u
  | objDescend {k v tl u} : JsonEmits v u → JsonEmits (.objCons k v tl) u
  | objTail {k v tl u} : JsonEmits tl u → JsonEmits (.objCons k v tl) u

/-! ### Page model

Both extractors fetch the page with `requests.get` (redirects followed,
`raise_for_status` turning non-2xx statuses into exceptions) and parse it with
BeautifulSoup.  A `Page` is the parsed view both extractors consume: the final
URL after redirects (`response.url`), the `<video>` elements with their `src`
attribute and nested `<source>` elements, the `<iframe>` `src` attributes, the
`<script type="application/json">` bodies as parsed JSON (`none` when absent or
unparsable, which the source skips via `except: pass`), every `<script>`
element's string body, the raw `response.text`, and the anchors with their
optional `href` attribute and text. -/

/-- A `<video>` element: optional `src` attribute and the `src` attributes of
its nested `<source>` elements (in document order, `none` when absent). -/
structure VideoTag where
  src : Option String
  sourceSrcs : List (Option String)
deriving DecidableEq, Repr

/-- An `<a>` element: optional `href` attribute and visible text. -/
structure Anchor where
  href : Option String
  text : String
deriving DecidableEq, Repr

/-- Parsed view of a fetched page. -/
structure Page where
  finalUrl : String
  videoTags : List VideoTag
  iframeSrcs : List (Option String)
  jsonScripts : List (Option Json)
  scriptStrings : List (Option String)
  text : String
  anchors : List Anchor
deriving DecidableEq, Repr

/-! ### Candidate extraction strategies

`extract_video_url_from_webpage` (`extract_video_urls.py` lines 86-146)
resolves relative URLs against `page_url`, the *requested* URL, and appends
iframe `src` attributes verbatim.  `extract_video_urls_from_page`
(`extract_embedded_videos.py` lines 104-199) resolves against
`base_url = response.url`, the *final* URL after redirects, and joins iframe
sources too.  Python truthiness tests (`if video.get('src'):`,
`if script.string:`, `if a.get('href') ...`) skip empty strings. -/

/-- Strategy 1 of both extractors: `<video>` `src` attributes and nested
`<source>` `src` attributes, resolved against `base`
(`extract_video_urls.py` lines 104-109, `extract_embedded_videos.py` lines
129-141). -/
def mediaTagCandidates (base : String) (p : Page) : List String :=
  p.videoTags.flatMap (fun v =>
    (match v.src with
     | some s => if s = "" then [] else [urljoin base s]
     | none => []) ++
    v.sourceSrcs.flatMap (fun o =>
      match o with
      | some s => if s = "" then [] else [urljoin base s]
      | none => []))

/-- Strategy 2 of `extract_video_urls.py` (lines 112-114): iframe `src`
attributes appended verbatim, without resolution. -/
def iframeCandidatesA (p : Page) : List String :=
  p.iframeSrcs.flatMap (fun o =>
    match o with
    | some s => if s = "" then [] else [s]
    | none => [])

/-- Strategy 2 of `extract_embedded_videos.py` (lines 145-149): iframe `src`
attributes resolved against the final URL. -/
def iframeCandidatesB (base : String) (p : Page) : List String :=
  p.iframeSrcs.flatMap (fun o =>
    match o with
    | some s => if s = "" then [] else [urljoin base s]
    | none => [])

/-- Strategy 3 of `extract_video_urls.py` (lines 117-125): every
`<script type="application/json">` body that parses as JSON is walked with
`extract_urls_from_json`; unparsable scripts are skipped. -/
def inlineScriptCandidatesA (p : Page) : List String :=
  p.jsonScripts.flatMap (fun o =>
    match o with
    | some j => extract_urls_from_json j
    | none => [])

/-- Resolution step of `extract_embedded_videos.py` lines 162-163 and 174-175:
a value that does not start with `http://` or `https://` is resolved against
the base URL. -/
def resolveB (base u : String) : String :=
  if startsStr u "http://" || startsStr u "https://" then u else urljoin base u

/-- Strategy 3 of `extract_embedded_videos.py` (lines 154-165): every
non-empty script body is scanned with the inline-script pattern and each
emission is resolved when not `http`-prefixed. -/
def inlineScriptCandidatesB (base : String) (p : Page) : List String :=
  p.scriptStrings.flatMap (fun o =>
    match o with
    | some s => if s = "" then [] else (scriptEmissionsB s).map (resolveB base)
    | none => [])

/-- Strategy 4 of `extract_embedded_videos.py` (lines 168-177): for each
extension in `VIDEO_EXTENSIONS`, the raw text is scanned with the direct-link
pattern and each group-1 value is resolved when not `http`-prefixed. -/
def filePatternAllB (base : String) (text : String) : List String :=
  videoExtensionsB.flatMap (fun e =>
    (filePatternCandidatesB e text).map (resolveB base))

/-- Keyword list of `extract_embedded_videos.py` line 181. -/
def downloadKeywords : List String := ["download", "media", "video"]

/-- Strategy 5 of `extract_video_urls.py` (lines 134-140): anchors that carry
an `href` attribute (`find_all('a', href=True)`); the candidate is emitted when
`download` occurs in the raw href, or `download` or `video` occurs in the
lower-cased link text. -/
def anchorCandidatesA (base : String) (p : Page) : List String :=
  p.anchors.flatMap (fun a =>
    match a.href with
    | none => []
    | some h =>
      if substrStr "download" h || substrStr "download" (lowerStr a.text) ||
          substrStr "video" (lowerStr a.text)
      then [urljoin base h] else [])

/-- Strategy 5 of `extract_embedded_videos.py` (lines 180-192): an anchor
whose (truthy) href contains a keyword case-insensitively emits the resolved
href; independently, an anchor whose (truthy) text contains a keyword emits the
resolved href (empty when the attribute is missing), so one anchor can emit
twice. -/
def anchorCandidatesB (base : String) (a : Anchor) : List String :=
  (match a.href with
   | some h =>
     if h = "" then []
     else if downloadKeywords.any (fun k => substrStr k (lowerStr h))
     then [urljoin base h] else []
   | none => []) ++
  (if a.text = "" then []
   else if downloadKeywords.any (fun k => substrStr k (lowerStr a.text))
   then [urljoin base (a.href.getD "")] else [])

/-- The raw candidate sequence built by `extract_video_url_from_webpage`
(`extract_video_urls.py` lines 100-141): the five strategies concatenated in
source order, with `page_url` (the requested URL, not the final URL) as the
resolution base. -/
def potentialUrlsA (pageUrl : String) (p : Page) : List String :=
  mediaTagCandidates pageUrl p ++
  iframeCandidatesA p ++
  inlineScriptCandidatesA p ++
  filePatternCandidatesA p.text ++
  anchorCandidatesA pageUrl p

/-- The raw candidate sequence built by `extract_video_urls_from_page`
(`extract_embedded_videos.py` lines 123-192): the five strategies concatenated
in source order, with `base_url = response.url` (the final URL after
redirects) as the resolution base. -/
def potentialUrlsB (p : Page) : List String :=
  mediaTagCandidates p.finalUrl p ++
  iframeCandidatesB p.finalUrl p ++
  inlineScriptCandidatesB p.finalUrl p ++
  filePatternAllB p.finalUrl p.text ++
  p.anchors.flatMap (anchorCandidatesB p.finalUrl)

/-! ### Deduplicator model

Both extractors deduplicate with `return list(set(potential_urls))`
(`extract_video_urls.py` line 143, `extract_embedded_videos.py` line 195).
A CPython `set` iterates in an unspecified order: it depends on the randomised
string hash (`PYTHONHASHSEED`) and the table layout, not on insertion order.
The only contract `list(set(xs))` provides is therefore: the result lists the
distinct elements of `xs`, each exactly once, in some order.  The model
captures this by quantifying over the functions satisfying `IsListSet`. -/

/-- Order-preserving first-occurrence deduplication, as the specification
describes the Deduplicator ("keeping the earliest occurrence").  `seen`
accumulates the values already kept. -/
def dedupFirstAux (seen : List String) : List String → List String
  | [] => []
  | x :: xs =>
    if x ∈ seen then dedupFirstAux seen xs
    else x :: dedupFirstAux (x :: seen) xs

/-- Modelled from the spec: the Deduplicator of section 4.2, dropping any
candidate whose URL equals one already accepted and keeping the earliest
occurrence.  Used as the order-preserving reference against which
`list(set(...))` is compared. -/
def dedupFirstOrder (l : List String) : List String := dedupFirstAux [] l

/-- Contract of `list(set(xs))`: `ys` is a possible result exactly when it is
a permutation of the distinct elements of `xs` (each kept once).  Both orders
of a two-element set do occur across hash seeds, so every permutation is an
admissible behaviour of the source expression. -/
def IsListSet (xs ys : List String) : Prop := ys.Perm (dedupFirstOrder xs)

instance (xs ys : List String) : Decidable (IsListSet xs ys) :=
  List.decidablePerm ys (dedupFirstOrder xs)

/-! ### Orchestrator model

`process_url` of `extract_video_urls.py` (lines 166-184) probes the original
URL, and on failure fetches the page, extracts and deduplicates candidates and
probes them in list order, returning the first downloadable one or `None`.
`process_url` of `extract_embedded_videos.py` (lines 201-240) builds a results
dictionary; its candidate loop has no early exit and collects every
downloadable candidate.  The world supplies the behaviour of the two external
effects: `probe` is the yt-dlp verdict for a URL (downloadable flag and
optional error message, the shape returned by the wrapper of
`extract_embedded_videos.py`), and `fetch` is the page request (an error value
models both network failures and `raise_for_status` on non-2xx statuses).
Each model also returns the list of effect events it performed, in order, so
that short-circuiting is visible. -/

/-- Externally observable effects of one resolution. -/
inductive Event where
  | probe (url : String) (ok : Bool)
  | fetchOk (url : String)
  | fetchFail (url : String) (err : String)
deriving DecidableEq, Repr

/-- External behaviour: yt-dlp probe verdicts and page-fetch outcomes. -/
structure World where
  probe : String → Bool × Option String
  fetch : String → Except String Page

/-- Boolean downloadability verdict, as consumed by
`extract_video_urls.py` (its wrapper returns a plain boolean). -/
def oracleOf (w : World) (u : String) : Bool := (w.probe u).1

/-- Model of `extract_video_url_from_webpage` (lines 86-146): on fetch success
the raw candidates are computed and deduplicated (the unspecified set order is
supplied as the function `d`, constrained by `IsListSet` in the theorems); the
enclosing `try`/`except` turns any fetch failure into an empty list. -/
def extract_video_url_from_webpage (w : World) (d : List String → List String)
    (pageUrl : String) : List String × List Event :=
  match w.fetch pageUrl with
  | .error e => ([], [.fetchFail pageUrl e])
  | .ok p => (d (potentialUrlsA pageUrl p), [.fetchOk pageUrl])

/-- Candidate loop of `extract_video_urls.py` `process_url` (lines 177-181):
probes in list order and returns the first downloadable URL, probing nothing
after it. -/
def probeLoopA (o : String → Bool) : List String → Option String × List Event
  | [] => (none, [])
  | c :: cs =>
    if o c then (some c, [.probe c true])
    else
      let r := probeLoopA o cs
      (r.1, .probe c false :: r.2)

/-- Model of `process_url` of `extract_video_urls.py` (lines 166-184). -/
def process_urlA (w : World) (d : List String → List String) (url : String) :
    Option String × List Event :=
  if oracleOf w url then (some url, [.probe url true])
  else
    let ex := extract_video_url_from_webpage w d url
    let r := probeLoopA (oracleOf w) ex.1
    (r.1, .probe url false :: (ex.2 ++ r.2))

/-- Results dictionary of `process_url` of `extract_embedded_videos.py`
(lines 203-209). -/
structure ResultsB where
  original_url : String
  direct_downloadable : Bool
  embedded_videos_found : List String
  downloadable_videos : List String
  errors : List String
deriving DecidableEq, Repr

/-- Python truthiness guard on an optional error message (`if direct_error:`,
`elif embedded_error:`): an absent or empty message records nothing. -/
def errEntry (pre : String) (e : Option String) : List String :=
  match e with
  | some m => if m = "" then [] else [pre ++ m]
  | none => []

/-- Model of `extract_video_urls_from_page` (lines 104-199): fetch, extract
with the final URL as base, deduplicate; the enclosing `try`/`except` turns
any fetch failure into an empty list. -/
def extract_video_urls_from_page (w : World) (d : List String → List String)
    (pageUrl : String) : List String × List Event :=
  match w.fetch pageUrl with
  | .error e => ([], [.fetchFail pageUrl e])
  | .ok p => (d (potentialUrlsB p), [.fetchOk pageUrl])

/-- Candidate loop of `extract_embedded_videos.py` `process_url`
(lines 230-238): every candidate is probed; downloadable ones are collected,
and a failing probe with a truthy error message appends an error entry.
Returns (downloadable videos, error entries, probe events). -/
def probeLoopB (pr : String → Bool × Option String) :
    List String → List String × List String × List Event
  | [] => ([], [], [])
  | c :: cs =>
    let v := pr c
    let r := probeLoopB pr cs
    ((if v.1 then c :: r.1 else r.1),
     (if v.1 then [] else errEntry ("Embedded URL error (" ++ c ++ "): ") v.2) ++ r.2.1,
     .probe c v.1 :: r.2.2)

/-- Model of `process_url` of `extract_embedded_videos.py` (lines 201-240). -/
def process_urlB (w : World) (d : List String → List String) (url : String) :
    ResultsB × List Event :=
  let v := w.probe url
  if v.1 then
    ({ original_url := url, direct_downloadable := true,
       embedded_videos_found := [], downloadable_videos := [url], errors := [] },
     [.probe url true])
  else
    let ex := extract_video_urls_from_page w d url
    let r := probeLoopB w.probe ex.1
    ({ original_url := url, direct_downloadable := false,
       embedded_videos_found := ex.1, downloadable_videos := r.1,
       errors := errEntry "Direct URL error: " v.2 ++ r.2.1 },
     .probe url false :: (ex.2 ++ r.2.2))

/-! ### Model of the yt-dlp wrapper functions

`is_downloadable_with_ytdlp` appears in all three files with different
`try`/`except` layouts.  `PyExc` enumerates the `Exception`-derived classes the
probe internals can raise (`TimeoutExpired` is a subclass of
`SubprocessError`, both handled where the source names them); `YtdlpEnv`
records the behaviour of the `yt_dlp` import, the `extract_info` call and the
subprocess fallback.  The wrappers are modelled as `Except` values so that an
uncaught exception would be visible as an `.error`. -/

/-- Exception classes (all deriving from Python's `Exception`) with their
`str(e)` message. -/
inductive PyExc where
  | importErr (msg : String)
  | timeoutExpired (msg : String)
  | subprocErr (msg : String)
  | otherErr (msg : String)
deriving DecidableEq, Repr

/-- Python's `str(e)`. -/
def PyExc.msg : PyExc → String
  | .importErr m => m
  | .timeoutExpired m => m
  | .subprocErr m => m
  | .otherErr m => m

/-- Outcome of `ydl.extract_info(url, download=False)`: a value (with the flag
telling whether `info` is `None`) or a raised exception. -/
inductive ExtractInfoOutcome where
  | ok (infoIsNone : Bool)
  | raises (e : PyExc)
deriving DecidableEq, Repr

/-- Outcome of the `subprocess.run` fallback: a completed process with return
code and stderr, or a raised exception. -/
inductive SubprocOutcome where
  | ok (returncode : Int) (stderr : String)
  | raises (e : PyExc)
deriving DecidableEq, Repr

/-- Behaviour of the external calls one wrapper invocation can make. -/
structure YtdlpEnv where
  importOk : Bool
  importMsg : String
  extractInfo : ExtractInfoOutcome
  subproc : SubprocOutcome
deriving DecidableEq, Repr

/-- Body of the inner `try` of `extract_video_urls.py`
`is_downloadable_with_ytdlp` (lines 53-68) before its handler: import the
module and call `extract_info`, returning `info is not None`. -/
def ytdlpBodyA (env : YtdlpEnv) : Except PyExc Bool :=
  if env.importOk then
    match env.extractInfo with
    | .ok isNone => .ok (!isNone)
    | .raises e => .error e
  else .error (.importErr env.importMsg)

/-- Inner `try` of `extract_video_urls.py` (lines 53-78): an `ImportError`
falls back to `subprocess.run`, whose success is `returncode == 0`; any other
exception escapes to the outer handlers. -/
def ytdlpInnerA (env : YtdlpEnv) : Except PyExc Bool :=
  match ytdlpBodyA env with
  | .error (.importErr _) =>
    (match env.subproc with
     | .ok rc _ => .ok (rc == 0)
     | .raises e => .error e)
  | r => r

/-- Model of `is_downloadable_with_ytdlp` of `extract_video_urls.py`
(lines 48-84): the outer handlers `except subprocess.TimeoutExpired` and
`except Exception` both return `False`. -/
def is_downloadable_with_ytdlpA (env : YtdlpEnv) : Except PyExc Bool :=
  match ytdlpInnerA env with
  | .ok b => .ok b
  | .error (.timeoutExpired _) => .ok false
  | .error _ => .ok false

/-- Body of the inner `try` of `extract_embedded_videos.py` and
`test_yt_dlp_urls.py` (they return `(url, True, None)` on any completed
`extract_info`, ignoring whether `info` is `None`). -/
def ytdlpBodyB (env : YtdlpEnv) (url : String) :
    Except PyExc (String × Bool × Option String) :=
  if env.importOk then
    match env.extractInfo with
    | .ok _ => .ok (url, true, none)
    | .raises e => .error e
  else .error (.importErr env.importMsg)

/-- Inner `try` of `extract_embedded_videos.py` (lines 59-99): `ImportError`
triggers the subprocess fallback whose nested handler catches
`SubprocessError` (including `TimeoutExpired`); a non-`SubprocessError` raise
inside that handler escapes to the outer `try`; any other exception from
`extract_info` is caught by `except Exception` returning
`(url, False, str(e))`. -/
def ytdlpInnerB (env : YtdlpEnv) (url : String) :
    Except PyExc (String × Bool × Option String) :=
  match ytdlpBodyB env url with
  | .ok r => .ok r
  | .error (.importErr _) =>
    (match env.subproc with
     | .ok rc stderr =>
       if rc == 0 then .ok (url, true, none) else .ok (url, false, some stderr)
     | .raises (.subprocErr m) => .ok (url, false, some ("Subprocess error: " ++ m))
     | .raises (.timeoutExpired m) => .ok (url, false, some ("Subprocess error: " ++ m))
     | .raises e => .error e)
  | .error e => .ok (url, false, some e.msg)

/-- Model of `is_downloadable_with_ytdlp` of `extract_embedded_videos.py`
(lines 54-102): the outer `except Exception` returns `(url, False, str(e))`. -/
def is_downloadable_with_ytdlpB (env : YtdlpEnv) (url : String) :
    Except PyExc (String × Bool × Option String) :=
  match ytdlpInnerB env url with
  | .ok r => .ok r
  | .error e => .ok (url, false, some e.msg)

/-- Model of `is_downloadable_with_ytdlp` of `test_yt_dlp_urls.py`
(lines 37-70): no subprocess fallback; `ImportError` yields
`(url, False, "Import error: ...")`, any other exception from the body or the
outer `try` yields `(url, False, str(e))`. -/
def is_downloadable_with_ytdlpT (env : YtdlpEnv) (url : String) :
    Except PyExc (String × Bool × Option String) :=
  match (match ytdlpBodyB env url with
         | .ok r => Except.ok r
         | .error (.importErr m) =>
           Except.ok (url, false, some ("Import error: " ++ m))
         | .error e => Except.ok (url, false, some e.msg) :
         Except PyExc (String × Bool × Option String)) with
  | .ok r => .ok r
  | .error e => .ok (url, false, some e.msg)

/-! ### Specification-side comparison definitions -/

/-- Modelled from the spec: the recognised key set named by the InlineScript
strategy sentence of section 4.1 (`url`, `src`, `source`, `file`, `videoUrl`,
`videoSrc`).  The source files use different key sets, so this definition
follows the spec's words for comparison. -/
def specInlineKeys : List String := ["url", "src", "source", "file", "videoUrl", "videoSrc"]

/-- Modelled from the spec: the "value ends in a recognised video file
extension (mp4, webm, m3u8, mpd)" condition of the InlineScript strategy
sentence of section 4.1. -/
def specEndsInVideoExt (u : String) : Bool :=
  ["mp4", "webm", "m3u8", "mpd"].any (fun e => endsChars u.data ('.' :: e.data))

/-! ### Concrete instances used by the closed theorems -/

/-- Page with two distinct absolute `<video>` sources. -/
def pageTwoMedia : Page :=
  { finalUrl := "https://ex.org/meeting"
    videoTags := [⟨some "https://a.org/x.mp4", []⟩, ⟨some "https://a.org/y.mp4", []⟩]
    iframeSrcs := []
    jsonScripts := []
    scriptStrings := []
    text := ""
    anchors := [] }

/-- Page with one absolute `<video>` source and one download anchor. -/
def pageMediaAnchor : Page :=
  { finalUrl := "https://ex.org/meeting"
    videoTags := [⟨some "https://a.org/v.mp4", []⟩]
    iframeSrcs := []
    jsonScripts := []
    scriptStrings := []
    text := ""
    anchors := [⟨some "https://a.org/dl", "Download Recording"⟩] }

/-- Page with two iframes. -/
def pageTwoIframes : Page :=
  { finalUrl := "https://ex.org/meeting"
    videoTags := []
    iframeSrcs := [some "https://e.org/i1", some "https://e.org/i2"]
    jsonScripts := []
    scriptStrings := []
    text := ""
    anchors := [] }

/-- Page fetched through a redirect: requested under `redirect.me`, final URL
on `site.org`, carrying a root-relative `<video>` source. -/
def pageRedirected : Page :=
  { finalUrl := "https://site.org/events/1"
    videoTags := [⟨some "/clip.mp4", []⟩]
    iframeSrcs := []
    jsonScripts := []
    scriptStrings := []
    text := ""
    anchors := [] }

/-- Page with no candidates at all. -/
def pageEmpty : Page :=
  { finalUrl := "https://ex.org/meeting"
    videoTags := []
    iframeSrcs := []
    jsonScripts := []
    scriptStrings := []
    text := ""
    anchors := [] }

/-- World whose Oracle accepts both the media source and the anchor URL of
`pageMediaAnchor`, and rejects the input page URL. -/
def worldBothAccepted : World :=
  { probe := fun u =>
      (decide (u = "https://a.org/v.mp4") || decide (u = "https://a.org/dl"), none)
    fetch := fun u =>
      if u = "https://ex.org/meeting" then .ok pageMediaAnchor else .error "unreachable" }

/-- World whose Oracle accepts only the media source of `pageMediaAnchor`. -/
def worldMediaOnly : World :=
  { probe := fun u => (decide (u = "https://a.org/v.mp4"), none)
    fetch := fun u =>
      if u = "https://ex.org/meeting" then .ok pageMediaAnchor else .error "unreachable" }

/-- World whose Oracle accepts both iframe URLs of `pageTwoIframes`. -/
def worldIframes : World :=
  { probe := fun u =>
      (decide (u = "https://e.org/i1") || decide (u = "https://e.org/i2"), none)
    fetch := fun u =>
      if u = "https://ex.org/meeting" then .ok pageTwoIframes else .error "unreachable" }

/-- World where the input URL itself is directly downloadable and any page
fetch would fail (so a fetch attempt would be visible in the event trace). -/
def worldDirect : World :=
  { probe := fun u => (decide (u = "https://ex.org/meeting"), none)
    fetch := fun _ => .error "no fetch expected" }

/-- World whose page fetch fails with a network error. -/
def worldFetchFail : World :=
  { probe := fun _ => (false, some "HTTP Error 403: Forbidden")
    fetch := fun _ => .error "Connection refused" }

/-- World with the same probe behaviour as `worldFetchFail` whose fetch
succeeds with a page containing no candidates. -/
def worldNoCandidates : World :=
  { probe := fun _ => (false, some "HTTP Error 403: Forbidden")
    fetch := fun u =>
      if u = "https://ex.org/meeting" then .ok pageEmpty else .error "unreachable" }

/-- World rejecting every URL, fetching `pageTwoIframes` for the input page. -/
def worldAllRejected : World :=
  { probe := fun _ => (false, none)
    fetch := fun u =>
      if u = "https://ex.org/meeting" then .ok pageTwoIframes else .error "unreachable" }

/-- JSON body `{"media": "http://a.org/page.html"}`. -/
def jsonMediaEx : Json := .objCons "media" (.str "http://a.org/page.html") .objNil

/-- JSON body `{"file": "http://a.org/clip.mp4"}`. -/
def jsonFileEx : Json := .objCons "file" (.str "http://a.org/clip.mp4") .objNil

/-- Environment where the `yt_dlp` import fails and the subprocess fallback
times out. -/
def envTimeout : YtdlpEnv :=
  { importOk := false
    importMsg := "No module named yt_dlp"
    extractInfo := .raises (.otherErr "unused")
    subproc := .raises (.timeoutExpired "Command timed out after 30 seconds") }

/-! ### General lemmas -/

theorem mem_dedupFirstAux (l : List String) (seen : List String) (u : String) :
    u ∈ dedupFirstAux seen l ↔ u ∈ l ∧ u ∉ seen := by
  induction l generalizing seen with
  | nil => simp [dedupFirstAux]
  | cons x xs ih =>
    by_cases hx : x ∈ seen
    · rw [dedupFirstAux, if_pos hx, ih]
      constructor
      · rintro ⟨h1, h2⟩; exact ⟨List.mem_cons_of_mem x h1, h2⟩
      · rintro ⟨h1, h2⟩
        rcases List.mem_cons.mp h1 with h1 | h1
        · exact absurd (h1 ▸ hx) h2
        · exact ⟨h1, h2⟩
    · rw [dedupFirstAux, if_neg hx]
      simp only [List.mem_cons, ih, List.mem_cons, not_or]
      constructor
      · rintro (rfl | ⟨h1, h2, h3⟩)
        · exact ⟨Or.inl rfl, hx⟩
        · exact ⟨Or.inr h1, h3⟩
      · rintro ⟨rfl | h1, h2⟩
        · exact Or.inl rfl
        · by_cases hux : u = x
          · exact Or.inl hux
          · exact Or.inr ⟨h1, hux, h2⟩

theorem nodup_dedupFirstAux (l : List String) (seen : List String) :
    (dedupFirstAux seen l).Nodup := by
  induction l generalizing seen with
  | nil => simp [dedupFirstAux]
  | cons x xs ih =>
    by_cases hx : x ∈ seen
    · rw [dedupFirstAux, if_pos hx]; exact ih seen
    · rw [dedupFirstAux, if_neg hx, List.nodup_cons]
      refine ⟨fun hmem => ?_, ih (x :: seen)⟩
      exact ((mem_dedupFirstAux xs (x :: seen) x).mp hmem).2 (List.mem_cons_self x seen)

theorem dedupFirstAux_eq_self (l : List String) (seen : List String)
    (hl : l.Nodup) (hd : ∀ x ∈ l, x ∉ seen) : dedupFirstAux seen l = l := by
  induction l generalizing seen with
  | nil => rfl
  | cons x xs ih =>
    rw [List.nodup_cons] at hl
    rw [dedupFirstAux, if_neg (hd x (List.mem_cons_self x xs))]
    congr 1
    refine ih (x :: seen) hl.2 fun y hy => ?_
    intro hmem
    rcases List.mem_cons.mp hmem with h | h
    · exact hl.1 (h ▸ hy)
    · exact hd y (List.mem_cons_of_mem x hy) h

theorem mem_dedupFirstOrder (l : List String) (u : String) :
    u ∈ dedupFirstOrder l ↔ u ∈ l := by
  rw [dedupFirstOrder, mem_dedupFirstAux]
  simp

theorem nodup_dedupFirstOrder (l : List String) : (dedupFirstOrder l).Nodup :=
  nodup_dedupFirstAux l []

theorem dedupFirstOrder_eq_self (l : List String) (hl : l.Nodup) :
    dedupFirstOrder l = l :=
  dedupFirstAux_eq_self l [] hl (by simp)

theorem isListSet_nodup {xs ys : List String} (h : IsListSet xs ys) : ys.Nodup :=
  (List.Perm.nodup_iff h).mpr (nodup_dedupFirstOrder xs)

theorem isListSet_mem {xs ys : List String} (h : IsListSet xs ys) (u : String) :
    u ∈ ys ↔ u ∈ xs := by
  rw [List.Perm.mem_iff h, mem_dedupFirstOrder]

theorem isListSet_length {xs ys : List String} (h : IsListSet xs ys) :
    ys.length = (dedupFirstOrder xs).length :=
  List.Perm.length_eq h

theorem probeLoopA_fst (o : String → Bool) (cs : List String) :
    (probeLoopA o cs).1 = cs.find? o := by
  induction cs with
  | nil => rfl
  | cons c cs ih =>
    by_cases h : o c
    · simp [probeLoopA, h, List.find?_cons_of_pos]
    · simp only [probeLoopA, h]
      rw [List.find?_cons_of_neg _ (by simp [h]), if_neg (by simp [h])]
      exact ih

theorem probeLoopA_snd (o : String → Bool) (cs : List String) :
    (probeLoopA o cs).2 =
      (cs.takeWhile (fun c => !(o c))).map (fun c => Event.probe c false) ++
      (match cs.find? o with
       | some c => [Event.probe c true]
       | none => []) := by
  induction cs with
  | nil => rfl
  | cons c cs ih =>
    by_cases h : o c
    · rw [probeLoopA, if_pos h, List.find?_cons_of_pos _ h]
      simp [List.takeWhile_cons, h]
    · rw [probeLoopA, if_neg (by simp [h]), List.find?_cons_of_neg _ (by simp [h])]
      simp [List.takeWhile_cons, h, ih]

theorem probeLoopA_all_false (o : String → Bool) (cs : List String)
    (h : ∀ c ∈ cs, o c = false) :
    probeLoopA o cs = (none, cs.map (fun c => Event.probe c false)) := by
  induction cs with
  | nil => rfl
  | cons c cs ih =>
    have hc : o c = false := h c (List.mem_cons_self c cs)
    rw [probeLoopA, if_neg (by simp [hc]),
      ih fun c' hc' => h c' (List.mem_cons_of_mem c hc')]
    simp

theorem probeLoopB_events (pr : String → Bool × Option String) (cs : List String) :
    (probeLoopB pr cs).2.2 = cs.map (fun c => Event.probe c (pr c).1) := by
  induction cs with
  | nil => rfl
  | cons c cs ih => simp [probeLoopB, ih]

theorem probeLoopB_downloads (pr : String → Bool × Option String) (cs : List String) :
    (probeLoopB pr cs).1 = cs.filter (fun c => (pr c).1) := by
  induction cs with
  | nil => rfl
  | cons c cs ih =>
    by_cases h : (pr c).1
    · simp [probeLoopB, h, ih, List.filter_cons]
    · simp [probeLoopB, h, ih, List.filter_cons]

theorem find?_eq_of_unique (o : String → Bool) (cs : List String) (m : String)
    (hm : m ∈ cs) (ho : o m = true)
    (huniq : ∀ c ∈ cs, o c = true → c = m) :
    cs.find? o = some m := by
  induction cs with
  | nil => cases hm
  | cons c cs ih =>
    by_cases h : o c
    · have hcm : c = m := huniq c (List.mem_cons_self c cs) h
      subst hcm
      exact List.find?_cons_of_pos _ h
    · rw [List.find?_cons_of_neg _ (by simp [h])]
      rcases List.mem_cons.mp hm with rfl | hm'
      · exact absurd ho (by simp [h])
      · exact ih hm' fun c' hc' => huniq c' (List.mem_cons_of_mem c hc')

theorem filter_eq_single (p : String → Bool) (cs : List String) (m : String)
    (hnd : cs.Nodup) (hm : m ∈ cs)
    (huniq : ∀ c ∈ cs, p c = true ↔ c = m) :
    cs.filter p = [m] := by
  induction cs with
  | nil => cases hm
  | cons c cs ih =>
    rw [List.nodup_cons] at hnd
    by_cases hcm : c = m
    · subst hcm
      rw [List.filter_cons, if_pos (by simp [(huniq c (List.mem_cons_self c cs)).mpr rfl])]
      congr 1
      rw [List.filter_eq_nil_iff]
      intro a ha hpa
      exact hnd.1 (((huniq a (List.mem_cons_of_mem c ha)).mp hpa) ▸ ha)
    · have hp : ¬(p c = true) := fun h => hcm ((huniq c (List.mem_cons_self c cs)).mp h)
      rw [List.filter_cons, if_neg (by simpa using hp)]
      rcases List.mem_cons.mp hm with rfl | hm'
      · exact absurd rfl hcm
      · exact ih hnd.2 hm' fun c' hc' => huniq c' (List.mem_cons_of_mem c hc')

/-! ### Claim theorems -/

/-- Claim C1 (amended): the Deduplicator `list(set(potential_urls))` removes
duplicates — every admissible output lists each distinct raw candidate exactly
once (`Nodup`, membership equal to the raw sequence, length equal to the
number of unique candidates) — but its order is unspecified, so the output
need not preserve the first-appearance order. -/
theorem c1_dedup_unique_not_ordered (xs ys : List String) (h : IsListSet xs ys) :
    ys.Nodup ∧ (∀ u, u ∈ ys ↔ u ∈ xs) ∧ ys.length = (dedupFirstOrder xs).length :=
  ⟨isListSet_nodup h, isListSet_mem h, isListSet_length h⟩

/-- Claim C1 witness: `c1_dedup_unique_not_ordered` at a concrete duplicate-bearing
candidate sequence and a concrete admissible set order. -/
theorem c1_dedup_unique_not_ordered_witness :
    IsListSet ["https://a.org/x.mp4", "https://a.org/x.mp4", "https://a.org/y.mp4"]
      ["https://a.org/y.mp4", "https://a.org/x.mp4"] ∧
    ((["https://a.org/y.mp4", "https://a.org/x.mp4"] : List String).Nodup ∧
     (∀ u, u ∈ ["https://a.org/y.mp4", "https://a.org/x.mp4"] ↔
        u ∈ ["https://a.org/x.mp4", "https://a.org/x.mp4", "https://a.org/y.mp4"]) ∧
     (["https://a.org/y.mp4", "https://a.org/x.mp4"] : List String).length =
       (dedupFirstOrder
         ["https://a.org/x.mp4", "https://a.org/x.mp4", "https://a.org/y.mp4"]).length) :=
  ⟨by decide,
   c1_dedup_unique_not_ordered
     ["https://a.org/x.mp4", "https://a.org/x.mp4", "https://a.org/y.mp4"]
     ["https://a.org/y.mp4", "https://a.org/x.mp4"] (by decide)⟩

/-- Claim C1 counterexample: on the raw candidate sequence extracted from
`pageTwoMedia`, the reversed order is an admissible output of `list(set(...))`
yet differs from the order-preserving first-occurrence deduplication, so the
first-appearance-order half of the claim fails on the code. -/
theorem c1_order_counterexample :
    potentialUrlsA "https://ex.org/meeting" pageTwoMedia =
      ["https://a.org/x.mp4", "https://a.org/y.mp4"] ∧
    IsListSet (potentialUrlsA "https://ex.org/meeting" pageTwoMedia)
      ["https://a.org/y.mp4", "https://a.org/x.mp4"] ∧
    dedupFirstOrder (potentialUrlsA "https://ex.org/meeting" pageTwoMedia) =
      ["https://a.org/x.mp4", "https://a.org/y.mp4"] ∧
    (["https://a.org/y.mp4", "https://a.org/x.mp4"] : List String) ≠
      ["https://a.org/x.mp4", "https://a.org/y.mp4"] := by decide

/-- Claim C9 (amended): re-running the Deduplicator on its own output removes
nothing — the second output is a permutation of the first, with equal length
and equal membership — but the identical-sequence guarantee does not hold
because the set iteration order is unspecified. -/
theorem c9_dedup_stable_up_to_order (xs ys zs : List String)
    (h1 : IsListSet xs ys) (h2 : IsListSet ys zs) :
    zs.Perm ys ∧ zs.length = ys.length ∧ (∀ u, u ∈ zs ↔ u ∈ ys) := by
  have hy : ys.Nodup := isListSet_nodup h1
  have hself : dedupFirstOrder ys = ys := dedupFirstOrder_eq_self ys hy
  have hp : zs.Perm ys := by
    have h2' := h2
    rw [IsListSet, hself] at h2'
    exact h2'
  exact ⟨hp, List.Perm.length_eq hp, fun u => List.Perm.mem_iff hp⟩

/-- Claim C9 witness: `c9_dedup_stable_up_to_order` at concrete lists. -/
theorem c9_dedup_stable_up_to_order_witness :
    IsListSet ["https://a.org/x.mp4", "https://a.org/x.mp4", "https://a.org/y.mp4"]
      ["https://a.org/y.mp4", "https://a.org/x.mp4"] ∧
    IsListSet ["https://a.org/y.mp4", "https://a.org/x.mp4"]
      ["https://a.org/x.mp4", "https://a.org/y.mp4"] ∧
    ((["https://a.org/x.mp4", "https://a.org/y.mp4"] : List String).Perm
       ["https://a.org/y.mp4", "https://a.org/x.mp4"] ∧
     (["https://a.org/x.mp4", "https://a.org/y.mp4"] : List String).length =
       (["https://a.org/y.mp4", "https://a.org/x.mp4"] : List String).length ∧
     (∀ u, u ∈ ["https://a.org/x.mp4", "https://a.org/y.mp4"] ↔
        u ∈ ["https://a.org/y.mp4", "https://a.org/x.mp4"])) :=
  ⟨by decide, by decide,
   c9_dedup_stable_up_to_order
     ["https://a.org/x.mp4", "https://a.org/x.mp4", "https://a.org/y.mp4"]
     ["https://a.org/y.mp4", "https://a.org/x.mp4"]
     ["https://a.org/x.mp4", "https://a.org/y.mp4"] (by decide) (by decide)⟩

/-- Claim C9 counterexample: both orders of a two-element candidate set are
admissible outputs of `list(set(...))`, so applying the Deduplicator to its own
output can reorder it, refuting the identical-sequence claim. -/
theorem c9_identity_counterexample :
    IsListSet ["https://a.org/x.mp4", "https://a.org/y.mp4"]
      ["https://a.org/y.mp4", "https://a.org/x.mp4"] ∧
    IsListSet ["https://a.org/y.mp4", "https://a.org/x.mp4"]
      ["https://a.org/x.mp4", "https://a.org/y.mp4"] ∧
    (["https://a.org/x.mp4", "https://a.org/y.mp4"] : List String) ≠
      ["https://a.org/y.mp4", "https://a.org/x.mp4"] := by decide

/-- Claim C4: when the direct probe succeeds, both `process_url` implementations
return the original URL as the downloadable result (model of
`strategy_used = "direct"`), perform no page fetch and no candidate probe (the
event trace is the single direct probe, so `candidates_tried` is empty), and
`extract_video_urls.py` returns the URL itself while
`extract_embedded_videos.py` marks `direct_downloadable` and lists exactly the
original URL. -/
theorem c4_direct_short_circuit (w : World) (d : List String → List String)
    (url : String) (h : oracleOf w url = true) :
    process_urlA w d url = (some url, [Event.probe url true]) ∧
    process_urlB w d url =
      ({ original_url := url, direct_downloadable := true,
         embedded_videos_found := [], downloadable_videos := [url], errors := [] },
       [Event.probe url true]) := by
  have h' : (w.probe url).1 = true := h
  constructor
  · simp [process_urlA, h]
  · simp [process_urlB, h']

/-- Claim C4 witness: `c4_direct_short_circuit` in a world whose fetch would fail,
showing that no fetch is attempted. -/
theorem c4_direct_short_circuit_witness :
    oracleOf worldDirect "https://ex.org/meeting" = true ∧
    (process_urlA worldDirect (fun l => l) "https://ex.org/meeting" =
       (some "https://ex.org/meeting", [Event.probe "https://ex.org/meeting" true]) ∧
     process_urlB worldDirect (fun l => l) "https://ex.org/meeting" =
       ({ original_url := "https://ex.org/meeting", direct_downloadable := true,
          embedded_videos_found := [],
          downloadable_videos := ["https://ex.org/meeting"], errors := [] },
        [Event.probe "https://ex.org/meeting" true])) :=
  ⟨by decide, c4_direct_short_circuit worldDirect (fun l => l) _ (by decide)⟩

/-- Claim C5 (amended): a fetch failure is swallowed by the extractor's exception
handler: the resolution terminates unresolved (`None` in
`extract_video_urls.py`; `direct_downloadable = false` with empty candidate and
download lists in `extract_embedded_videos.py`) without any exception reaching
the caller, but no "page fetch failed" reason is recorded — the `errors` field
holds only the direct-probe error, independent of the fetch error `e` — so the
outcome is not distinguishable from the no-candidates outcome. -/
theorem c5_fetch_failure_swallowed (w : World) (d : List String → List String)
    (url e : String) (hf : w.fetch url = .error e) (hd : oracleOf w url = false) :
    process_urlA w d url = (none, [Event.probe url false, Event.fetchFail url e]) ∧
    (process_urlB w d url).1 =
      { original_url := url, direct_downloadable := false,
        embedded_videos_found := [], downloadable_videos := [],
        errors := errEntry "Direct URL error: " (w.probe url).2 } ∧
    (process_urlB w d url).2 = [Event.probe url false, Event.fetchFail url e] := by
  have h' : (w.probe url).1 = false := hd
  refine ⟨?_, ?_, ?_⟩ <;>
    simp [process_urlA, process_urlB, extract_video_url_from_webpage,
      extract_video_urls_from_page, hf, h', hd, probeLoopA, probeLoopB]

/-- Claim C5 witness: `c5_fetch_failure_swallowed` at a concrete failing world. -/
theorem c5_fetch_failure_swallowed_witness :
    worldFetchFail.fetch "https://ex.org/meeting" = Except.error "Connection refused" ∧
    (process_urlA worldFetchFail (fun l => l) "https://ex.org/meeting" =
       (none, [Event.probe "https://ex.org/meeting" false,
               Event.fetchFail "https://ex.org/meeting" "Connection refused"]) ∧
     (process_urlB worldFetchFail (fun l => l) "https://ex.org/meeting").1 =
       { original_url := "https://ex.org/meeting", direct_downloadable := false,
         embedded_videos_found := [], downloadable_videos := [],
         errors := errEntry "Direct URL error: "
           (worldFetchFail.probe "https://ex.org/meeting").2 } ∧
     (process_urlB worldFetchFail (fun l => l) "https://ex.org/meeting").2 =
       [Event.probe "https://ex.org/meeting" false,
        Event.fetchFail "https://ex.org/meeting" "Connection refused"]) :=
  ⟨rfl, c5_fetch_failure_swallowed worldFetchFail (fun l => l) _ _ rfl (by decide)⟩

/-- Claim C5 counterexample: a fetch-failure world and a no-candidates world with the
same probe behaviour produce identical results in both implementations — the
fetch error "Connection refused" is preserved nowhere — so the claimed
distinguishable "page fetch failed" outcome does not exist in the code. -/
theorem c5_indistinguishable_counterexample :
    (process_urlA worldFetchFail (fun l => l) "https://ex.org/meeting").1 = none ∧
    (process_urlA worldFetchFail (fun l => l) "https://ex.org/meeting").1 =
      (process_urlA worldNoCandidates (fun l => l) "https://ex.org/meeting").1 ∧
    (process_urlB worldFetchFail (fun l => l) "https://ex.org/meeting").1 =
      (process_urlB worldNoCandidates (fun l => l) "https://ex.org/meeting").1 ∧
    (process_urlB worldFetchFail (fun l => l) "https://ex.org/meeting").1.errors =
      ["Direct URL error: HTTP Error 403: Forbidden"] ∧
    (∀ s ∈ (process_urlB worldFetchFail (fun l => l) "https://ex.org/meeting").1.errors,
      substrStr "Connection refused" s = false) := by decide

/-- Claim C6: when the Oracle rejects every candidate (and the direct probe fails
and the fetch succeeds), both implementations probe every unique candidate
exactly once — the candidate probe trace (the model of `candidates_tried`) has
one `downloadable: false` entry per unique candidate and its length equals the
number of unique candidates — and the resolution ends unresolved (`None`;
empty `downloadable_videos`). -/
theorem c6_exhaustion (w : World) (d : List String → List String) (url : String)
    (p : Page)
    (hdir : oracleOf w url = false)
    (hfetch : w.fetch url = .ok p)
    (hded : IsListSet (potentialUrlsA url p) (d (potentialUrlsA url p)))
    (hrej : ∀ c ∈ potentialUrlsA url p, oracleOf w c = false)
    (hdedB : IsListSet (potentialUrlsB p) (d (potentialUrlsB p)))
    (hrejB : ∀ c ∈ potentialUrlsB p, oracleOf w c = false) :
    (process_urlA w d url).1 = none ∧
    (process_urlA w d url).2 =
      Event.probe url false :: Event.fetchOk url ::
        (d (potentialUrlsA url p)).map (fun c => Event.probe c false) ∧
    (d (potentialUrlsA url p)).length = (dedupFirstOrder (potentialUrlsA url p)).length ∧
    (process_urlB w d url).1.downloadable_videos = [] ∧
    (process_urlB w d url).2 =
      Event.probe url false :: Event.fetchOk url ::
        (d (potentialUrlsB p)).map (fun c => Event.probe c false) ∧
    (d (potentialUrlsB p)).length = (dedupFirstOrder (potentialUrlsB p)).length := by
  have h' : (w.probe url).1 = false := hdir
  have hallA : ∀ c ∈ d (potentialUrlsA url p), oracleOf w c = false := fun c hc =>
    hrej c ((isListSet_mem hded c).mp hc)
  have hallB : ∀ c ∈ d (potentialUrlsB p), oracleOf w c = false := fun c hc =>
    hrejB c ((isListSet_mem hdedB c).mp hc)
  have hA := probeLoopA_all_false (oracleOf w) _ hallA
  refine ⟨?_, ?_, isListSet_length hded, ?_, ?_, isListSet_length hdedB⟩
  · simp [process_urlA, hdir, extract_video_url_from_webpage, hfetch, hA]
  · simp [process_urlA, hdir, extract_video_url_from_webpage, hfetch, hA]
  · rw [show (process_urlB w d url).1.downloadable_videos =
        ((d (potentialUrlsB p)).filter (fun c => (w.probe c).1)) from by
      simp [process_urlB, h', extract_video_urls_from_page, hfetch, probeLoopB_downloads]]
    rw [List.filter_eq_nil_iff]
    intro c hc
    have hb : (w.probe c).1 = false := hallB c hc
    simp [hb]
  · rw [show (process_urlB w d url).2 =
        Event.probe url false :: Event.fetchOk url ::
          (d (potentialUrlsB p)).map (fun c => Event.probe c (w.probe c).1) from by
      simp [process_urlB, h', extract_video_urls_from_page, hfetch, probeLoopB_events]]
    congr 2
    refine List.map_congr_left fun c hc => ?_
    exact congrArg (Event.probe c) (hallB c hc)

/-- Claim C6 witness: `c6_exhaustion` in a world rejecting everything. -/
theorem c6_exhaustion_witness :
    (∀ c ∈ potentialUrlsB pageTwoIframes, oracleOf worldAllRejected c = false) ∧
    ((process_urlA worldAllRejected (fun l => l) "https://ex.org/meeting").1 = none ∧
     (process_urlA worldAllRejected (fun l => l) "https://ex.org/meeting").2 =
       Event.probe "https://ex.org/meeting" false :: Event.fetchOk "https://ex.org/meeting" ::
         ((fun l => l) (potentialUrlsA "https://ex.org/meeting" pageTwoIframes)).map
           (fun c => Event.probe c false) ∧
     ((fun l => l) (potentialUrlsA "https://ex.org/meeting" pageTwoIframes)).length =
       (dedupFirstOrder (potentialUrlsA "https://ex.org/meeting" pageTwoIframes)).length ∧
     (process_urlB worldAllRejected (fun l => l) "https://ex.org/meeting").1.downloadable_videos = [] ∧
     (process_urlB worldAllRejected (fun l => l) "https://ex.org/meeting").2 =
       Event.probe "https://ex.org/meeting" false :: Event.fetchOk "https://ex.org/meeting" ::
         ((fun l => l) (potentialUrlsB pageTwoIframes)).map (fun c => Event.probe c false) ∧
     ((fun l => l) (potentialUrlsB pageTwoIframes)).length =
       (dedupFirstOrder (potentialUrlsB pageTwoIframes)).length) :=
  ⟨by decide, c6_exhaustion worldAllRejected (fun l => l) _ pageTwoIframes
      (by decide) rfl (by decide) (by decide) (by decide) (by decide)⟩

/-- Claim C2 (amended): when the Oracle accepts the media element's source and
rejects every other extracted candidate (direct probe failing, fetch
succeeding), every admissible set order resolves to the media source — but
strategy precedence itself is not enforced, because `list(set(...))` discards
the strategy order (see the counterexample). -/
theorem c2_media_wins_when_only_accepted (w : World) (d : List String → List String)
    (url : String) (p : Page) (m : String)
    (hfetch : w.fetch url = .ok p)
    (hdir : oracleOf w url = false)
    (hmedia : m ∈ mediaTagCandidates url p)
    (hm : oracleOf w m = true)
    (hothers : ∀ c ∈ potentialUrlsA url p, c ≠ m → oracleOf w c = false)
    (hded : IsListSet (potentialUrlsA url p) (d (potentialUrlsA url p)))
    (hmediaB : m ∈ mediaTagCandidates p.finalUrl p)
    (hothersB : ∀ c ∈ potentialUrlsB p, c ≠ m → oracleOf w c = false)
    (hdedB : IsListSet (potentialUrlsB p) (d (potentialUrlsB p))) :
    (process_urlA w d url).1 = some m ∧
    (process_urlB w d url).1.downloadable_videos = [m] := by
  have h' : (w.probe url).1 = false := hdir
  have hmemPotA : m ∈ potentialUrlsA url p := by
    simp [potentialUrlsA, List.mem_append, hmedia]
  have hmemPotB : m ∈ potentialUrlsB p := by
    simp [potentialUrlsB, List.mem_append, hmediaB]
  constructor
  · have hfind : (d (potentialUrlsA url p)).find? (oracleOf w) = some m := by
      refine find?_eq_of_unique _ _ m ((isListSet_mem hded m).mpr hmemPotA) hm ?_
      intro c hc hoc
      by_contra hne
      exact absurd hoc (by simp [hothers c ((isListSet_mem hded c).mp hc) hne])
    simp [process_urlA, hdir, extract_video_url_from_webpage, hfetch,
      probeLoopA_fst, hfind]
  · have hfilter : (d (potentialUrlsB p)).filter (fun c => (w.probe c).1) = [m] := by
      refine filter_eq_single _ _ m (isListSet_nodup hdedB)
        ((isListSet_mem hdedB m).mpr hmemPotB) ?_
      intro c hc
      constructor
      · intro hoc
        by_contra hne
        have hr : oracleOf w c = false := hothersB c ((isListSet_mem hdedB c).mp hc) hne
        exact absurd hoc (by simp [show (w.probe c).1 = false from hr])
      · rintro rfl
        exact hm
    simp [process_urlB, h', extract_video_urls_from_page, hfetch,
      probeLoopB_downloads, hfilter]

/-- Claim C2 witness: `c2_media_wins_when_only_accepted` in a world accepting only
the media source of `pageMediaAnchor`. -/
theorem c2_media_wins_witness :
    (∀ c ∈ potentialUrlsA "https://ex.org/meeting" pageMediaAnchor,
        c ≠ "https://a.org/v.mp4" → oracleOf worldMediaOnly c = false) ∧
    ((process_urlA worldMediaOnly (fun l => l) "https://ex.org/meeting").1 =
       some "https://a.org/v.mp4" ∧
     (process_urlB worldMediaOnly (fun l => l)
        "https://ex.org/meeting").1.downloadable_videos = ["https://a.org/v.mp4"]) :=
  ⟨by decide,
   c2_media_wins_when_only_accepted worldMediaOnly (fun l => l) "https://ex.org/meeting"
     pageMediaAnchor "https://a.org/v.mp4" rfl (by decide) (by decide) (by decide)
     (by decide) (by decide) (by decide) (by decide) (by decide)⟩

/-- Claim C2 counterexample: `pageMediaAnchor` holds a native media element with an
absolute source the Oracle accepts, the direct probe fails, and an AnchorText
candidate also matches; under the admissible reversed set order the resolution
returns the anchor URL, not the media source, so `strategy_used == MediaTag`
is not guaranteed by the code. -/
theorem c2_precedence_counterexample :
    oracleOf worldBothAccepted "https://ex.org/meeting" = false ∧
    "https://a.org/v.mp4" ∈ mediaTagCandidates "https://ex.org/meeting" pageMediaAnchor ∧
    hasScheme "https://a.org/v.mp4" = true ∧
    oracleOf worldBothAccepted "https://a.org/v.mp4" = true ∧
    "https://a.org/dl" ∈ anchorCandidatesA "https://ex.org/meeting" pageMediaAnchor ∧
    IsListSet (potentialUrlsA "https://ex.org/meeting" pageMediaAnchor)
      (List.reverse (potentialUrlsA "https://ex.org/meeting" pageMediaAnchor)) ∧
    (process_urlA worldBothAccepted List.reverse "https://ex.org/meeting").1 =
      some "https://a.org/dl" ∧
    "https://a.org/dl" ∉ mediaTagCandidates "https://ex.org/meeting" pageMediaAnchor := by
  decide

/-- Claim C3 (amended): in `extract_video_urls.py`, candidates are probed strictly
in list order: the result is the first Oracle-accepted candidate
(`List.find?`), the probe trace covers exactly the rejected elements up to and
including the first success, and under a failing direct probe and a successful
fetch `process_url` returns the first accepted element of the deduplicated
candidate list.  In `extract_embedded_videos.py`, by contrast, the loop has no
early exit: every candidate is probed and all accepted ones are collected in
list order. -/
theorem c3_probe_order :
    (∀ (o : String → Bool) (cs : List String),
        (probeLoopA o cs).1 = cs.find? o ∧
        (probeLoopA o cs).2 =
          (cs.takeWhile (fun c => !(o c))).map (fun c => Event.probe c false) ++
          (match cs.find? o with
           | some c => [Event.probe c true]
           | none => [])) ∧
    (∀ (pr : String → Bool × Option String) (cs : List String),
        (probeLoopB pr cs).2.2 = cs.map (fun c => Event.probe c (pr c).1) ∧
        (probeLoopB pr cs).1 = cs.filter (fun c => (pr c).1)) ∧
    (∀ (w : World) (d : List String → List String) (url : String) (p : Page),
        w.fetch url = .ok p → oracleOf w url = false →
        (process_urlA w d url).1 = (d (potentialUrlsA url p)).find? (oracleOf w)) ∧
    (∀ (w : World) (d : List String → List String) (url : String) (p : Page),
        w.fetch url = .ok p → oracleOf w url = false →
        (process_urlB w d url).1.downloadable_videos =
          (d (potentialUrlsB p)).filter (fun c => (w.probe c).1)) := by
  refine ⟨fun o cs => ⟨probeLoopA_fst o cs, probeLoopA_snd o cs⟩,
          fun pr cs => ⟨probeLoopB_events pr cs, probeLoopB_downloads pr cs⟩, ?_, ?_⟩
  · intro w d url p hfetch hdir
    simp [process_urlA, hdir, extract_video_url_from_webpage, hfetch, probeLoopA_fst]
  · intro w d url p hfetch hdir
    have h' : (w.probe url).1 = false := hdir
    simp [process_urlB, h', extract_video_urls_from_page, hfetch, probeLoopB_downloads]

/-- Claim C3 witness: the `process_url` clause of `c3_probe_order` at a concrete
world and page. -/
theorem c3_probe_order_witness :
    worldBothAccepted.fetch "https://ex.org/meeting" = Except.ok pageMediaAnchor ∧
    oracleOf worldBothAccepted "https://ex.org/meeting" = false ∧
    (process_urlA worldBothAccepted List.reverse "https://ex.org/meeting").1 =
      (List.reverse (potentialUrlsA "https://ex.org/meeting" pageMediaAnchor)).find?
        (oracleOf worldBothAccepted) :=
  ⟨rfl, by decide,
   c3_probe_order.2.2.1 worldBothAccepted List.reverse "https://ex.org/meeting"
     pageMediaAnchor rfl (by decide)⟩

/-- Claim C3 counterexample: in `extract_embedded_videos.py` the Oracle accepts the
first iframe candidate, yet the second candidate is still probed afterwards
(two `true` probe events) and both are collected, so the "no candidate after
the first success is ever probed" half of the claim fails on that
implementation. -/
theorem c3_no_break_counterexample :
    IsListSet (potentialUrlsB pageTwoIframes) (potentialUrlsB pageTwoIframes) ∧
    (process_urlB worldIframes (fun l => l) "https://ex.org/meeting").1.downloadable_videos =
      ["https://e.org/i1", "https://e.org/i2"] ∧
    (process_urlB worldIframes (fun l => l) "https://ex.org/meeting").2 =
      [Event.probe "https://ex.org/meeting" false,
       Event.fetchOk "https://ex.org/meeting",
       Event.probe "https://e.org/i1" true,
       Event.probe "https://e.org/i2" true] := by decide

/-- Claim C7 (amended): for a `<video>` source, `extract_embedded_videos.py`
resolves against the final fetched URL (`response.url`), so a `/clip.mp4`
candidate on a page whose final URL is `https://site.org/events/1` normalises
to `https://site.org/clip.mp4`; `extract_video_urls.py` instead resolves
against the originally requested URL, so the spec's normalisation example
holds for it only when no redirect occurred. -/
theorem c7_relative_resolution :
    (∀ (p : Page) (reqUrl s : String) (v : VideoTag),
        v ∈ p.videoTags → v.src = some s → s ≠ "" →
        urljoin p.finalUrl s ∈ potentialUrlsB p ∧
        urljoin reqUrl s ∈ potentialUrlsA reqUrl p) ∧
    urljoin "https://site.org/events/1" "/clip.mp4" = "https://site.org/clip.mp4" := by
  refine ⟨?_, by decide⟩
  intro p reqUrl s v hv hsrc hs
  constructor
  · have hmem : urljoin p.finalUrl s ∈ mediaTagCandidates p.finalUrl p := by
      rw [mediaTagCandidates]
      refine List.mem_flatMap.mpr ⟨v, hv, ?_⟩
      rw [hsrc]
      simp [hs]
    simp [potentialUrlsB, List.mem_append, hmem]
  · have hmem : urljoin reqUrl s ∈ mediaTagCandidates reqUrl p := by
      rw [mediaTagCandidates]
      refine List.mem_flatMap.mpr ⟨v, hv, ?_⟩
      rw [hsrc]
      simp [hs]
    simp [potentialUrlsA, List.mem_append, hmem]

/-- Claim C7 witness: `c7_relative_resolution` on the redirected page. -/
theorem c7_relative_resolution_witness :
    (⟨some "/clip.mp4", []⟩ : VideoTag) ∈ pageRedirected.videoTags ∧
    (urljoin pageRedirected.finalUrl "/clip.mp4" ∈ potentialUrlsB pageRedirected ∧
     urljoin "https://redirect.me/x" "/clip.mp4" ∈
       potentialUrlsA "https://redirect.me/x" pageRedirected) :=
  ⟨by decide,
   c7_relative_resolution.1 pageRedirected "https://redirect.me/x" "/clip.mp4"
     ⟨some "/clip.mp4", []⟩ (by decide) rfl (by decide)⟩

/-- Claim C7 counterexample: the same redirected page yields
`https://redirect.me/clip.mp4` in `extract_video_urls.py` (joined against the
requested URL) but `https://site.org/clip.mp4` in
`extract_embedded_videos.py` (joined against the final URL), so the claim that
normalisation always uses the final fetched URL fails on the code. -/
theorem c7_requested_base_counterexample :
    pageRedirected.finalUrl = "https://site.org/events/1" ∧
    potentialUrlsA "https://redirect.me/x" pageRedirected =
      ["https://redirect.me/clip.mp4"] ∧
    potentialUrlsB pageRedirected = ["https://site.org/clip.mp4"] ∧
    ("https://redirect.me/clip.mp4" : String) ≠ "https://site.org/clip.mp4" := by
  decide

theorem extract_objCons_str (k s : String) (tl : Json) :
    extract_urls_from_json (.objCons k (.str s) tl) =
      (if k ∈ jsonKeysA then (if startsStr s "http" then [s] else []) else []) ++
        extract_urls_from_json tl := rfl

theorem extract_objCons_notStr (k : String) (v tl : Json) (h : ∀ s, v ≠ .str s) :
    extract_urls_from_json (.objCons k v tl) =
      extract_urls_from_json v ++ extract_urls_from_json tl := by
  cases v with
  | str s => exact absurd rfl (h s)
  | intNum n => rfl
  | boolVal b => rfl
  | null => rfl
  | arrNil => rfl
  | arrCons x tl2 => rfl
  | objNil => rfl
  | objCons k2 v2 tl2 => rfl

/-- Claim C8 (amended): in `extract_video_urls.py`, the inline-script strategy walks
`application/json` script bodies and emits a string value exactly when its key
is one of `url`, `src`, `source`, `videoUrl`, `video_url`, `media`, `mediaUrl`
and the value starts with `http` — with no file-extension requirement and no
relative resolution (characterised by `JsonEmits`).  In
`extract_embedded_videos.py`, the script pattern does require a key from
`url`, `src`, `source`, `file`, `videoUrl`, `videoSrc` and a value ending in
`mp4`, `webm`, `m3u8`, `mpd` (both case-insensitively), but it emits the value
with the extension appended once more (`match[3] + match[4]`), not the value
itself. -/
theorem c8_inline_script_characterisation :
    (∀ (j : Json) (u : String), u ∈ extract_urls_from_json j ↔ JsonEmits j u) ∧
    scriptEmissionsB "\"file\":\"/clip.mp4\"" = ["/clip.mp4mp4"] := by
  refine ⟨fun j u => ?_, by decide⟩
  induction j with
  | str s =>
    refine ⟨fun h => absurd h (List.not_mem_nil u), fun h => nomatch h⟩
  | intNum n =>
    refine ⟨fun h => absurd h (List.not_mem_nil u), fun h => nomatch h⟩
  | boolVal b =>
    refine ⟨fun h => absurd h (List.not_mem_nil u), fun h => nomatch h⟩
  | null =>
    refine ⟨fun h => absurd h (List.not_mem_nil u), fun h => nomatch h⟩
  | arrNil =>
    refine ⟨fun h => absurd h (List.not_mem_nil u), fun h => nomatch h⟩
  | objNil =>
    refine ⟨fun h => absurd h (List.not_mem_nil u), fun h => nomatch h⟩
  | arrCons x tl ihx ihtl =>
    rw [show extract_urls_from_json (.arrCons x tl) =
          extract_urls_from_json x ++ extract_urls_from_json tl from rfl,
        List.mem_append, ihx, ihtl]
    constructor
    · rintro (h | h)
      · exact JsonEmits.arrHead h
      · exact JsonEmits.arrTail h
    · intro h
      cases h with
      | arrHead h2 => exact Or.inl h2
      | arrTail h2 => exact Or.inr h2
  | objCons k v tl ihv ihtl =>
    by_cases hstr : ∃ s, v = .str s
    · obtain ⟨s, rfl⟩ := hstr
      rw [extract_objCons_str, List.mem_append, ihtl]
      constructor
      · rintro (h | h)
        · by_cases hk : k ∈ jsonKeysA
          · rw [if_pos hk] at h
            by_cases hs : startsStr s "http" = true
            · rw [if_pos hs] at h
              have hu : u = s := List.mem_singleton.mp h
              subst hu
              exact JsonEmits.objHit hk hs
            · rw [if_neg hs] at h
              exact absurd h (List.not_mem_nil u)
          · rw [if_neg hk] at h
            exact absurd h (List.not_mem_nil u)
        · exact JsonEmits.objTail h
      · intro h
        cases h with
        | objHit hk hs =>
          rw [if_pos hk, if_pos hs]
          exact Or.inl (List.mem_singleton.mpr rfl)
        | objDescend h2 => exact absurd h2 (fun h2 => nomatch h2)
        | objTail h2 => exact Or.inr h2
    · rw [extract_objCons_notStr k v tl (fun s hs => hstr ⟨s, hs⟩),
          List.mem_append, ihv, ihtl]
      constructor
      · rintro (h | h)
        · exact JsonEmits.objDescend h
        · exact JsonEmits.objTail h
      · intro h
        cases h with
        | objHit hk hs => exact absurd ⟨u, rfl⟩ hstr
        | objDescend h2 => exact Or.inl h2
        | objTail h2 => exact Or.inr h2

/-- Claim C8 witness: the characterisation at the two concrete one-entry objects. -/
theorem c8_inline_script_witness :
    ("http://a.org/page.html" ∈ extract_urls_from_json jsonMediaEx ↔
      JsonEmits jsonMediaEx "http://a.org/page.html") ∧
    ("http://a.org/clip.mp4" ∈ extract_urls_from_json jsonFileEx ↔
      JsonEmits jsonFileEx "http://a.org/clip.mp4") :=
  ⟨c8_inline_script_characterisation.1 jsonMediaEx "http://a.org/page.html",
   c8_inline_script_characterisation.1 jsonFileEx "http://a.org/clip.mp4"⟩

/-- Claim C8 counterexample: `extract_video_urls.py` emits the value of key `media`
(not in the claim's key set) although it ends in no video extension, ignores
the value of key `file` (in the claim's key set, ending in `mp4`), and
`extract_embedded_videos.py` emits `/clip.mp4mp4` instead of the value
`/clip.mp4` — refuting the claimed "exactly when" emission rule. -/
theorem c8_emission_counterexample :
    extract_urls_from_json jsonMediaEx = ["http://a.org/page.html"] ∧
    specEndsInVideoExt "http://a.org/page.html" = false ∧
    "media" ∉ specInlineKeys ∧
    extract_urls_from_json jsonFileEx = [] ∧
    "file" ∈ specInlineKeys ∧
    specEndsInVideoExt "http://a.org/clip.mp4" = true ∧
    scriptEmissionsB "\"file\":\"/clip.mp4\"" = ["/clip.mp4mp4"] ∧
    ("/clip.mp4mp4" : String) ≠ "/clip.mp4" := by decide

/-- Claim C10: the three `is_downloadable_with_ytdlp` wrappers are total — for every
behaviour of the import, `extract_info` and subprocess calls (over the
`Exception`-derived classes of `PyExc`) they return a value instead of
propagating an exception — and whenever the probe machinery raised, the
returned verdict is not-downloadable: `False` in `extract_video_urls.py`, and
`(url, False, error message)` in `extract_embedded_videos.py`; in particular
an import failure whose subprocess fallback times out yields `False` and
`(url, False, "Subprocess error: ...")`. -/
theorem c10_wrapper_total (env : YtdlpEnv) (url : String) :
    (is_downloadable_with_ytdlpA env).isOk = true ∧
    (is_downloadable_with_ytdlpB env url).isOk = true ∧
    (is_downloadable_with_ytdlpT env url).isOk = true ∧
    ((ytdlpInnerA env).isOk = false → is_downloadable_with_ytdlpA env = .ok false) ∧
    (∀ e, ytdlpInnerB env url = .error e →
        is_downloadable_with_ytdlpB env url = .ok (url, false, some (PyExc.msg e))) ∧
    (∀ m, env.importOk = false → env.subproc = .raises (.timeoutExpired m) →
        is_downloadable_with_ytdlpA env = .ok false ∧
        is_downloadable_with_ytdlpB env url =
          .ok (url, false, some ("Subprocess error: " ++ m))) := by
  refine ⟨?_, ?_, ?_, ?_, ?_, ?_⟩
  · cases hin : ytdlpInnerA env with
    | ok b => simp [is_downloadable_with_ytdlpA, hin, Except.isOk, Except.toBool]
    | error e => cases e <;> simp [is_downloadable_with_ytdlpA, hin, Except.isOk, Except.toBool]
  · cases hin : ytdlpInnerB env url with
    | ok r => simp [is_downloadable_with_ytdlpB, hin, Except.isOk, Except.toBool]
    | error e => simp [is_downloadable_with_ytdlpB, hin, Except.isOk, Except.toBool]
  · cases hb : ytdlpBodyB env url with
    | ok r => simp [is_downloadable_with_ytdlpT, hb, Except.isOk, Except.toBool]
    | error e => cases e <;> simp [is_downloadable_with_ytdlpT, hb, Except.isOk, Except.toBool]
  · intro h
    cases hin : ytdlpInnerA env with
    | ok b => rw [hin] at h; exact absurd h (by simp [Except.isOk, Except.toBool])
    | error e => cases e <;> simp [is_downloadable_with_ytdlpA, hin]
  · intro e he
    simp [is_downloadable_with_ytdlpB, he]
  · intro m h1 h2
    constructor
    · simp [is_downloadable_with_ytdlpA, ytdlpInnerA, ytdlpBodyA, h1, h2]
    · simp [is_downloadable_with_ytdlpB, ytdlpInnerB, ytdlpBodyB, h1, h2]

/-- Claim C10 witness: `c10_wrapper_total` at the import-failure-plus-timeout
environment. -/
theorem c10_wrapper_total_witness :
    envTimeout.importOk = false ∧
    envTimeout.subproc = .raises (.timeoutExpired "Command timed out after 30 seconds") ∧
    (is_downloadable_with_ytdlpA envTimeout = .ok false ∧
     is_downloadable_with_ytdlpB envTimeout "https://ex.org/meeting" =
       .ok ("https://ex.org/meeting", false,
            some ("Subprocess error: " ++ "Command timed out after 30 seconds"))) :=
  ⟨rfl, rfl,
   (c10_wrapper_total envTimeout "https://ex.org/meeting").2.2.2.2.2
     "Command timed out after 30 seconds" rfl rfl⟩

end MVS
